import Mathlib

/-!
Shallow embedding of the fault-window concurrent workload harness of the
cortx-test repository, and proofs about it.

Embedded code:
* `src/commons/worker.py` — `WorkQ` (a `queue.Queue` subclass with a counting
  semaphore used for admission control) and `Workers` (a fixed-size thread
  pool: `start_workers`, `worker`, `wenque`, `end_workers`).
* `src/tests/ha/multi_pod_failure/test_multi_data_pod_failure.py`
  (`test_ios_during_data_kpods_down_safe`) — the fault-window signal
  (`threading.Event`, line 406) and the result-aggregation polling loops
  (lines 426-428, 538-540, 556-558).

The worker-pool is modelled twice, at two granularities:
* a functional model of one worker's loop body (`workerRun`), which is the
  direct translation of `Workers.worker` (worker.py lines 59-68) applied to
  the finite sequence of items that worker dequeues;
* a small-step transition system (`Step`/`Reach` on `PoolState`) for the
  whole pool, in which the blocking operations of `queue.Queue` and
  `threading.Semaphore` become enabledness guards, so that invariants that
  hold "at every instant" can be stated over all reachable states.

Python exceptions are modelled with `Except`; a Python thread that lets an
exception escape its target function terminates, which the models express
with an explicit `raised`/`crashed` outcome.
-/

namespace CortxTest

/-! ## WorkQ construction (worker.py lines 31-36)

`WorkQ.__init__(self, func, maxsize)` stores the handler on the queue
object, sets `lock_req = maxsize != 0`, and creates
`threading.Semaphore(maxsize)` next to a `queue.Queue(maxsize)`.
The structural fields of that construction (everything except the mutable
queue content, which lives in `PoolState` below): -/

structure WorkQmeta (φ : Type) where
  func : φ
  maxsize : Nat
  lock_req : Bool
  semCapacity : Nat

/-- `WorkQ(func, maxsize)` (worker.py lines 32-36). -/
def mkWorkQ (func : φ) (maxsize : Nat) : WorkQmeta φ :=
  { func := func, maxsize := maxsize, lock_req := decide (maxsize ≠ 0),
    semCapacity := maxsize }

/-- `Workers.start_workers(nworkers, func)` builds `WorkQ(func, nworkers)`
(worker.py line 52): the queue capacity and the semaphore capacity are both
the worker count. -/
def start_workers_q (nworkers : Nat) (func : φ) : WorkQmeta φ :=
  mkWorkQ func nworkers

/-! ## One worker's loop (worker.py lines 59-68)

```
def worker(self):
    while True:
        wq = self.w_workq.get()
        if wq is None:
            self.w_workq.task_done()
            break
        wi = wq.get()
        wq.func(wi)
        wq.task_done()
        self.w_workq.task_done()
```

Each item dequeued from the outer queue is either `None` (the shutdown
sentinel) or itself a `WorkQ` carrying its own handler `func` and its queued
elements.  An inner `WorkQ` is modelled by its handler and its current
contents; the handler returns `Except ε Unit` so that a raising Python
callable is `Except.error`. -/

structure InnerWQ (τ ε : Type) where
  func : τ → Except ε Unit
  items : List τ

/-- How a worker's loop ended (or failed to end). -/
inductive ExitReason (ε : Type)
  | sentinel : ExitReason ε
  | raised : ε → ExitReason ε
  | waiting : ExitReason ε
  deriving DecidableEq

/-- Observable record of one worker's run: the arguments the inner handlers
were invoked on (in order), the number of `task_done` acknowledgments issued
to inner queues and to the outer queue, and how the loop ended. -/
structure RunLog (τ ε : Type) where
  calls : List τ
  innerAcks : Nat
  outerAcks : Nat
  exit : ExitReason ε
  deriving DecidableEq

/-- The loop body of `Workers.worker` (worker.py lines 59-68), applied to the
sequence of items this worker dequeues from the outer queue (`[]` meaning the
next `get()` would block forever): `None` acknowledges the outer queue and
breaks; otherwise one element is dequeued from the inner `WorkQ`, the inner
queue's own `func` is applied to it, and only if that call returns normally
are the inner and outer queues acknowledged and the loop continued — an
escaping exception ends the thread with no acknowledgment.  The outer
queue `wq0` is carried exactly as `self.w_workq` is in the source: its
stored `func` is never applied. -/
def workerRun (wq0 : WorkQmeta φ) :
    List (Option (InnerWQ τ ε)) → RunLog τ ε
  | [] => { calls := [], innerAcks := 0, outerAcks := 0, exit := .waiting }
  | none :: _ => { calls := [], innerAcks := 0, outerAcks := 1, exit := .sentinel }
  | some wq :: rest =>
    match wq.items with
    | [] => { calls := [], innerAcks := 0, outerAcks := 0, exit := .waiting }
    | wi :: _ =>
      match wq.func wi with
      | .error e => { calls := [wi], innerAcks := 0, outerAcks := 0, exit := .raised e }
      | .ok _ =>
        let r := workerRun wq0 rest
        { calls := wi :: r.calls, innerAcks := r.innerAcks + 1,
          outerAcks := r.outerAcks + 1, exit := r.exit }

/-- An inner work item whose handler raises (`Except.error`), holding the
single element `7`. -/
def badWQ : InnerWQ Nat Unit :=
  { func := fun _ => Except.error (), items := [7] }

/-- An inner work item whose handler succeeds, holding the single element
`8`. -/
def goodWQ : InnerWQ Nat Unit :=
  { func := fun _ => Except.ok (), items := [8] }

/-- An outer queue as built by `start_workers(2, f)` for an arbitrary
handler `f`. -/
def outerQ2 : WorkQmeta (Option (InnerWQ Nat Unit) → Except Unit Unit) :=
  start_workers_q 2 (fun _ => Except.ok ())

end CortxTest

namespace CortxTest

/-! ## Result-aggregation polling loop

`test_multi_data_pod_failure.py` lines 556-558 (and 426-428, 538-540):

```
responses_rd = dict()
while len(responses_rd) != 2:
    responses_rd = output_rd.get(timeout=HA_CFG["common_params"]["60sec_delay"])
```

The loop keeps taking messages off the queue until one of the expected
shape (length) arrives; each `get` carries its own timeout, and a `get`
that times out raises `queue.Empty`, which propagates and aborts the test.
The queue's arrival sequence is modelled by the list of messages that will
arrive, in order; when the list is exhausted the next `get` times out.
A message is abstracted to a `List α` so that `len(...)` is `List.length`. -/

/-- The polling loop: return the first arriving message whose length is
`shape`; discard others; `Except.error ()` is the `queue.Empty` raised by a
timed-out `get`, which propagates (hard failure). -/
def await_report (shape : Nat) : List (List α) → Except Unit (List α)
  | [] => Except.error ()
  | m :: rest => if m.length = shape then Except.ok m else await_report shape rest

/-- Number of messages the polling loop consumes from the queue before
returning (not counting a final timed-out `get`, which consumes nothing). -/
def await_consumed (shape : Nat) : List (List α) → Nat
  | [] => 0
  | m :: rest => if m.length = shape then 1 else 1 + await_consumed shape rest

/-! ## The fault-window signal

`test_multi_data_pod_failure.py` line 406 creates the window as
`event = threading.Event()`.  `threading.Event` is a boolean flag:
`set()` makes it true, `clear()` makes it false, `is_set()` reads it;
none of these calls ever raises, and `set()` on an already-set event is an
idempotent no-op.  `signalOpen`/`signalClose` of the harness are `set` /
`clear` on this event. -/

structure Event where
  is_set : Bool
  deriving DecidableEq

/-- `threading.Event()` starts cleared (window CLOSED). -/
def mkEvent : Event := { is_set := false }

/-- `Event.set()`: unconditionally makes the flag true; never raises. -/
def Event.set (_ : Event) : Event := { is_set := true }

/-- `Event.clear()`: unconditionally makes the flag false; never raises. -/
def Event.clear (_ : Event) : Event := { is_set := false }

/-- `signalOpen` as the code realizes it: `event.set()`, which always
returns normally (`Except.ok`) whatever the current state. -/
def signalOpen (e : Event) : Except String Event :=
  Except.ok e.set

/-- Modelled from the spec: a `signalOpen` that detects a second open
without an intervening close as a fatal usage error ("a second
`signalOpen()` without an intervening `signalClose()` is a usage error",
spec section 4.2; usage errors "fail fast", section 7).  No such detection
exists in the source; this definition exists only to be compared with
`signalOpen`. -/
def signalOpen_spec (e : Event) : Except String Event :=
  if e.is_set then Except.error "usage error: double open"
  else Except.ok { is_set := true }

/-! ## Operation results and the fault-window classification

Modelled from the spec: the classification of completed operations against
the fault window, and the harness's assertion over it, are implemented in
`libs/ha/ha_common_libs_k8s.py` (`event_s3_operation`, `check_s3bench_log`),
which is not among the sources here; only the assertion call sites are
(`test_multi_data_pod_failure.py` lines 541-550: failures are asserted
absent in the pass bucket, and only the fail bucket — operations overlapping
the window — may contain failures).  Following spec section 3, an
`OperationResult` carries `{outcome, start timestamp, end timestamp}`, and
section 8: failures are admissible only for operations whose `[start,end]`
interval meets `[opened_at, closed_at]`. -/

structure OperationResult where
  opStart : Nat
  opEnd : Nat
  success : Bool
  deriving DecidableEq

structure WindowSpan where
  opened_at : Nat
  closed_at : Nat
  deriving DecidableEq

/-- Closed-interval intersection of the operation's `[start, end]` span with
the window's `[opened_at, closed_at]` span (touching endpoints — "adjacent"
operations — count as overlapping). -/
def overlapsWindow (r : OperationResult) (w : WindowSpan) : Bool :=
  decide (w.opened_at ≤ r.opEnd) && decide (r.opStart ≤ w.closed_at)

/-- Modelled from the spec: the failures the harness may not tolerate —
failed operations entirely outside the fault window. -/
def unexpected_failures (results : List OperationResult) (w : WindowSpan) :
    List OperationResult :=
  results.filter (fun r => !r.success && !overlapsWindow r w)

/-- Modelled from the spec: the harness's assertion (the
`check_s3bench_log(file_paths=pass_logs)` / `assert_false` pattern of
test lines 545-546): it passes exactly when no failure lies outside the
window. -/
def harness_assert (results : List OperationResult) (w : WindowSpan) : Bool :=
  (unexpected_failures results w).isEmpty

/-! ## The pool as a transition system (worker.py lines 31-80)

State of the whole `Workers` object together with the internal state of its
`WorkQ` and the progress of the main (orchestrating) thread:

* `cap` — the outer queue's `maxsize`, which is also the capacity of its
  admission semaphore (`WorkQ.__init__`; `start_workers` passes `nworkers`);
* `sem` — available permits of `threading.Semaphore(maxsize)`;
* `buf` — the queued items (FIFO); an item is `none` (the sentinel) or a
  task (`some ()` — the inner structure is irrelevant at this granularity
  and is covered by `workerRun`);
* `unfinished` — `queue.Queue.unfinished_tasks`: incremented by `put`,
  decremented by `task_done`; `join()` returns when it is `0`;
* `workers` — one status per spawned thread (the `w_workers` list);
* `main` — where the orchestrating thread is: still submitting, or inside
  `end_workers` (putting sentinels / `w_workq.join()` / joining threads),
  or returned from it;
* ghost counters `putsCount`, `acksCount`, `sentinelsPut`, `endCalls`
  recording the number of completed `put` calls, `task_done` calls,
  sentinels enqueued by `end_workers`, and `end_workers` invocations.

Blocking calls (`Semaphore.acquire`, `Queue.put` when full, `Queue.get`
when empty, `Queue.join` while `unfinished > 0`) become enabledness guards
of the corresponding transitions. -/

/-- Status of one worker thread: blocked in `get`, holding a dequeued item
(executing it if it is a task), exited normally via the sentinel, or
terminated by an escaped exception before acknowledging its item. -/
inductive WStatus
  | idle : WStatus
  | busy : Option Unit → WStatus
  | dead : WStatus
  | crashed : WStatus
  deriving DecidableEq

/-- Position of the orchestrating thread. -/
inductive MStatus
  | running : MStatus
  | putting : Nat → MStatus
  | joinQ : MStatus
  | joinT : MStatus
  | finished : MStatus
  deriving DecidableEq

structure PoolState where
  cap : Nat
  sem : Nat
  buf : List (Option Unit)
  unfinished : Nat
  workers : List WStatus
  main : MStatus
  putsCount : Nat
  acksCount : Nat
  sentinelsPut : Nat
  endCalls : Nat
  deriving DecidableEq

/-- `WorkQ.put` semantics for the permit count: `lock_req = maxsize != 0`
guards the `semaphore.acquire()` (worker.py lines 38-41). -/
def semAfterPut (s : PoolState) : Nat :=
  if s.cap = 0 then s.sem else s.sem - 1

/-- `WorkQ.task_done` semantics for the permit count: `semaphore.release()`
under the same `lock_req` guard (worker.py lines 43-46). -/
def semAfterAck (s : PoolState) : Nat :=
  if s.cap = 0 then s.sem else s.sem + 1

/-- `WorkQ.put` is enabled: a permit is available when `lock_req`
(`Semaphore.acquire` would not block) and the queue is not full
(`queue.Queue.put` would not block). -/
def canPut (s : PoolState) : Prop :=
  (s.cap ≠ 0 → 0 < s.sem) ∧ (s.cap ≠ 0 → s.buf.length < s.cap)

def isBusy : WStatus → Bool
  | .busy _ => true
  | _ => false

/-- A worker currently executing a task (not one merely holding the
sentinel between its `get` and its final `task_done`). -/
def isExec : WStatus → Bool
  | .busy (some _) => true
  | _ => false

def isCrashed : WStatus → Bool
  | .crashed => true
  | _ => false

/-- `Workers.start_workers(nworkers, func)` (worker.py lines 51-57):
`WorkQ(func, nworkers)` — empty queue, `nworkers` semaphore permits, zero
unfinished tasks — and `nworkers` threads all about to block in `get`. -/
def poolInit (nworkers : Nat) : PoolState :=
  { cap := nworkers, sem := nworkers, buf := [], unfinished := 0,
    workers := List.replicate nworkers .idle, main := .running,
    putsCount := 0, acksCount := 0, sentinelsPut := 0, endCalls := 0 }

/-- One atomic step of the pool.  Worker transitions follow the loop of
`Workers.worker` (lines 59-68); main-thread transitions follow `wenque`
(lines 70-71) and `end_workers` (lines 73-80). -/
inductive Step : PoolState → PoolState → Prop
  /-- `wenque(item)` = `w_workq.put(item)` by the orchestrator while it is
  still submitting: acquire a permit, append, bump `unfinished`. -/
  | submit (s : PoolState) (item : Option Unit) :
      s.main = .running → canPut s →
      Step s { s with
               sem := semAfterPut s
               buf := s.buf ++ [item]
               unfinished := s.unfinished + 1
               putsCount := s.putsCount + 1 }
  /-- `wq = self.w_workq.get()`: an idle worker removes the head item. -/
  | workerGet (s : PoolState) (i : Nat) (item : Option Unit)
      (rest : List (Option Unit)) :
      s.workers[i]? = some .idle → s.buf = item :: rest →
      Step s { s with
               buf := rest
               workers := s.workers.set i (.busy item) }
  /-- A worker holding a task runs it to completion and acknowledges:
  `wq.func(wi)` returned, then `wq.task_done(); self.w_workq.task_done()`
  (the outer `task_done` releases a permit), and the loop repeats. -/
  | workerFinishTask (s : PoolState) (i : Nat) :
      s.workers[i]? = some (.busy (some ())) →
      Step s { s with
               workers := s.workers.set i .idle
               sem := semAfterAck s
               unfinished := s.unfinished - 1
               acksCount := s.acksCount + 1 }
  /-- A worker holding the sentinel acknowledges it and breaks out of its
  loop (lines 61-64): the thread terminates. -/
  | workerFinishSentinel (s : PoolState) (i : Nat) :
      s.workers[i]? = some (.busy none) →
      Step s { s with
               workers := s.workers.set i .dead
               sem := semAfterAck s
               unfinished := s.unfinished - 1
               acksCount := s.acksCount + 1 }
  /-- `wq.func(wi)` raises: the exception escapes `worker`, the thread
  terminates, and neither queue is acknowledged. -/
  | workerCrash (s : PoolState) (i : Nat) :
      s.workers[i]? = some (.busy (some ())) →
      Step s { s with
               workers := s.workers.set i .crashed }
  /-- The orchestrator calls `end_workers()`; nothing in the source stops
  it from doing so again after a previous call returned. -/
  | mainEnd (s : PoolState) :
      s.main = .running ∨ s.main = .finished →
      Step s { s with
               main := .putting s.workers.length
               endCalls := s.endCalls + 1 }
  /-- One iteration of `for i in range(len(self.w_workers)):
  self.w_workq.put(None)` (lines 74-75). -/
  | mainPut (s : PoolState) (k : Nat) :
      s.main = .putting (k + 1) → canPut s →
      Step s { s with
               sem := semAfterPut s
               buf := s.buf ++ [none]
               unfinished := s.unfinished + 1
               putsCount := s.putsCount + 1
               sentinelsPut := s.sentinelsPut + 1
               main := .putting k }
  /-- The sentinel loop is exhausted; the orchestrator reaches
  `self.w_workq.join()` (line 76). -/
  | mainPutDone (s : PoolState) :
      s.main = .putting 0 →
      Step s { s with main := .joinQ }
  /-- `queue.Queue.join()` returns: enabled only once every `put` has been
  matched by a `task_done`. -/
  | mainJoinQ (s : PoolState) :
      s.main = .joinQ → s.unfinished = 0 →
      Step s { s with main := .joinT }
  /-- The `w_workers[i].join()` loop (lines 79-80) completes: enabled only
  once every worker thread has terminated (normally or by exception). -/
  | mainJoinT (s : PoolState) :
      s.main = .joinT → (∀ w ∈ s.workers, w = .dead ∨ w = .crashed) →
      Step s { s with main := .finished }

/-- Reachability from an initial state by `Step`. -/
inductive Reach (s0 : PoolState) : PoolState → Prop
  | refl : Reach s0 s0
  | tail {s t : PoolState} : Reach s0 s → Step s t → Reach s0 t

/-- Number of workers currently holding a dequeued item. -/
def countBusy (ws : List WStatus) : Nat := ws.countP isBusy

/-- Number of workers terminated by an escaped exception. -/
def countCrashed (ws : List WStatus) : Nat := ws.countP isCrashed

/-- Number of workers currently executing a task. -/
def countExec (ws : List WStatus) : Nat := ws.countP isExec

/-- Replacing the element at a valid position changes a `countP` by the
contributions of the old and new elements. -/
lemma countP_set_swap (p : α → Bool) {ws : List α} {i : Nat} {a : α}
    (b : α) (h : ws[i]? = some a) :
    (ws.set i b).countP p + (if p a then 1 else 0) =
      ws.countP p + (if p b then 1 else 0) := by
  obtain ⟨hlt, he⟩ := List.getElem?_eq_some_iff.mp h
  have hset := List.countP_set p ws i b hlt
  have hle : (if p ws[i] then 1 else 0) ≤ ws.countP p := by
    by_cases hc : p ws[i] = true
    · simpa [hc] using List.countP_pos_iff.mpr ⟨ws[i], List.getElem_mem hlt, hc⟩
    · simp [hc]
  rw [he] at hset hle
  omega

/-- A looked-up element satisfying `p` witnesses a positive count. -/
lemma countP_pos_of_lookup (p : α → Bool) {ws : List α} {i : Nat} {a : α}
    (h : ws[i]? = some a) (hp : p a = true) : 0 < ws.countP p :=
  List.countP_pos_iff.mpr ⟨a, List.getElem?_mem h, hp⟩

/-- The global invariant of the pool, relating the semaphore, the queue's
`unfinished_tasks` counter, the workers and the orchestrator's position.
`n` is the `nworkers` the pool was started with (assumed positive, as the
spec requires `worker_count ≥ 1`). -/
structure Inv (n : Nat) (s : PoolState) : Prop where
  cap_eq : s.cap = n
  wlen : s.workers.length = n
  sem_eq : s.sem + s.unfinished = n
  unf_eq : s.unfinished =
    s.buf.length + countBusy s.workers + countCrashed s.workers
  puts_eq : s.putsCount = s.acksCount + s.unfinished
  sent_run : s.main = .running → s.sentinelsPut = 0 ∧ s.endCalls = 0
  sent_put : ∀ k, s.main = .putting k → s.sentinelsPut + k = s.endCalls * n
  sent_done : (s.main = .joinQ ∨ s.main = .joinT ∨ s.main = .finished) →
    s.sentinelsPut = s.endCalls * n
  unf_done : (s.main = .joinT ∨ s.main = .finished) → s.unfinished = 0
  dead_fin : s.main = .finished → ∀ w ∈ s.workers, w = .dead

lemma inv_init (n : Nat) : Inv n (poolInit n) := by
  refine ⟨rfl, by simp [poolInit], by simp [poolInit], ?_, rfl, ?_, ?_, ?_, ?_, ?_⟩ <;>
    simp [poolInit, countBusy, countCrashed, List.countP_replicate, isBusy, isCrashed]

lemma inv_step {n : Nat} (hn : 0 < n) {s t : PoolState}
    (hs : Inv n s) (hst : Step s t) : Inv n t := by
  have hcapne : s.cap ≠ 0 := by rw [hs.cap_eq]; omega
  cases hst with
  | submit item hm hcp =>
    have hsem : 0 < s.sem := hcp.1 hcapne
    refine ⟨?_, ?_, ?_, ?_, ?_, ?_, ?_, ?_, ?_, ?_⟩ <;> dsimp only
    · exact hs.cap_eq
    · exact hs.wlen
    · have := hs.sem_eq
      simp only [semAfterPut, if_neg hcapne]
      omega
    · have := hs.unf_eq
      simp only [List.length_append, List.length_cons, List.length_nil]
      omega
    · have := hs.puts_eq; omega
    · intro _; exact hs.sent_run hm
    · intro k hk; rw [hm] at hk; simp at hk
    · intro hk; rw [hm] at hk
      rcases hk with h | h | h <;> simp at h
    · intro hk; rw [hm] at hk
      rcases hk with h | h <;> simp at h
    · intro hk; rw [hm] at hk; simp at hk
  | workerGet i item rest hw hbuf =>
    have hswapB := countP_set_swap isBusy (WStatus.busy item) hw
    have hswapC := countP_set_swap isCrashed (WStatus.busy item) hw
    have hlen : s.buf.length = rest.length + 1 := by rw [hbuf]; simp
    refine ⟨?_, ?_, ?_, ?_, ?_, ?_, ?_, ?_, ?_, ?_⟩ <;> dsimp only
    · exact hs.cap_eq
    · simpa using hs.wlen
    · exact hs.sem_eq
    · have := hs.unf_eq
      simp [isBusy, isCrashed] at hswapB hswapC
      simp only [countBusy, countCrashed] at this ⊢
      omega
    · exact hs.puts_eq
    · exact hs.sent_run
    · exact hs.sent_put
    · exact hs.sent_done
    · intro hj
      have := hs.unf_done hj
      have := hs.unf_eq
      omega
    · intro hf
      exfalso
      have := hs.unf_done (Or.inr hf)
      have := hs.unf_eq
      omega
  | workerFinishTask i hw =>
    have hswapB := countP_set_swap isBusy WStatus.idle hw
    have hswapC := countP_set_swap isCrashed WStatus.idle hw
    have hpos : 0 < countBusy s.workers :=
      countP_pos_of_lookup isBusy hw (by rfl)
    have hunf : 0 < s.unfinished := by
      have := hs.unf_eq
      simp only [countBusy] at hpos
      simp only [countBusy, countCrashed] at this
      omega
    refine ⟨?_, ?_, ?_, ?_, ?_, ?_, ?_, ?_, ?_, ?_⟩ <;> dsimp only
    · exact hs.cap_eq
    · simpa using hs.wlen
    · have := hs.sem_eq
      simp only [semAfterAck, if_neg hcapne]
      omega
    · have := hs.unf_eq
      simp [isBusy, isCrashed] at hswapB hswapC
      simp only [countBusy, countCrashed] at this hpos ⊢
      omega
    · have := hs.puts_eq; omega
    · exact hs.sent_run
    · exact hs.sent_put
    · exact hs.sent_done
    · intro hj
      exact absurd (hs.unf_done hj) (by omega)
    · intro hf
      exact absurd (hs.unf_done (Or.inr hf)) (by omega)
  | workerFinishSentinel i hw =>
    have hswapB := countP_set_swap isBusy WStatus.dead hw
    have hswapC := countP_set_swap isCrashed WStatus.dead hw
    have hpos : 0 < countBusy s.workers :=
      countP_pos_of_lookup isBusy hw (by rfl)
    have hunf : 0 < s.unfinished := by
      have := hs.unf_eq
      simp only [countBusy] at hpos
      simp only [countBusy, countCrashed] at this
      omega
    refine ⟨?_, ?_, ?_, ?_, ?_, ?_, ?_, ?_, ?_, ?_⟩ <;> dsimp only
    · exact hs.cap_eq
    · simpa using hs.wlen
    · have := hs.sem_eq
      simp only [semAfterAck, if_neg hcapne]
      omega
    · have := hs.unf_eq
      simp [isBusy, isCrashed] at hswapB hswapC
      simp only [countBusy, countCrashed] at this hpos ⊢
      omega
    · have := hs.puts_eq; omega
    · exact hs.sent_run
    · exact hs.sent_put
    · exact hs.sent_done
    · intro hj
      exact absurd (hs.unf_done hj) (by omega)
    · intro hf
      exact absurd (hs.unf_done (Or.inr hf)) (by omega)
  | workerCrash i hw =>
    have hswapB := countP_set_swap isBusy WStatus.crashed hw
    have hswapC := countP_set_swap isCrashed WStatus.crashed hw
    have hpos : 0 < countBusy s.workers :=
      countP_pos_of_lookup isBusy hw (by rfl)
    have hunf : 0 < s.unfinished := by
      have := hs.unf_eq
      simp only [countBusy] at hpos
      simp only [countBusy, countCrashed] at this
      omega
    refine ⟨?_, ?_, ?_, ?_, ?_, ?_, ?_, ?_, ?_, ?_⟩ <;> dsimp only
    · exact hs.cap_eq
    · simpa using hs.wlen
    · exact hs.sem_eq
    · have := hs.unf_eq
      simp [isBusy, isCrashed] at hswapB hswapC
      simp only [countBusy, countCrashed] at this hpos ⊢
      omega
    · exact hs.puts_eq
    · exact hs.sent_run
    · exact hs.sent_put
    · exact hs.sent_done
    · intro hj
      exact absurd (hs.unf_done hj) (by omega)
    · intro hf
      exact absurd (hs.unf_done (Or.inr hf)) (by omega)
  | mainEnd hm =>
    refine ⟨?_, ?_, ?_, ?_, ?_, ?_, ?_, ?_, ?_, ?_⟩ <;> dsimp only
    · exact hs.cap_eq
    · exact hs.wlen
    · exact hs.sem_eq
    · exact hs.unf_eq
    · exact hs.puts_eq
    · intro hk; simp at hk
    · intro k hk
      injection hk with h
      subst h
      rw [hs.wlen]
      rcases hm with hrun | hfin
      · obtain ⟨h1, h2⟩ := hs.sent_run hrun
        rw [h1, h2]
        simp [Nat.succ_mul]
      · have := hs.sent_done (Or.inr (Or.inr hfin))
        rw [this, Nat.succ_mul]
    · intro hk; rcases hk with h | h | h <;> simp at h
    · intro hk; rcases hk with h | h <;> simp at h
    · intro hk; simp at hk
  | mainPut k hm hcp =>
    have hsem : 0 < s.sem := hcp.1 hcapne
    refine ⟨?_, ?_, ?_, ?_, ?_, ?_, ?_, ?_, ?_, ?_⟩ <;> dsimp only
    · exact hs.cap_eq
    · exact hs.wlen
    · have := hs.sem_eq
      simp only [semAfterPut, if_neg hcapne]
      omega
    · have := hs.unf_eq
      simp only [List.length_append, List.length_cons, List.length_nil]
      omega
    · have := hs.puts_eq; omega
    · intro hk; simp at hk
    · intro k' hk'
      injection hk' with h
      subst h
      have := hs.sent_put (k + 1) hm
      omega
    · intro hk; rcases hk with h | h | h <;> simp at h
    · intro hk; rcases hk with h | h <;> simp at h
    · intro hk; simp at hk
  | mainPutDone hm =>
    refine ⟨?_, ?_, ?_, ?_, ?_, ?_, ?_, ?_, ?_, ?_⟩ <;> dsimp only
    · exact hs.cap_eq
    · exact hs.wlen
    · exact hs.sem_eq
    · exact hs.unf_eq
    · exact hs.puts_eq
    · intro hk; simp at hk
    · intro k hk; simp at hk
    · intro _
      have := hs.sent_put 0 hm
      omega
    · intro hk; rcases hk with h | h <;> simp at h
    · intro hk; simp at hk
  | mainJoinQ hm hu =>
    refine ⟨?_, ?_, ?_, ?_, ?_, ?_, ?_, ?_, ?_, ?_⟩ <;> dsimp only
    · exact hs.cap_eq
    · exact hs.wlen
    · exact hs.sem_eq
    · exact hs.unf_eq
    · exact hs.puts_eq
    · intro hk; simp at hk
    · intro k hk; simp at hk
    · intro _; exact hs.sent_done (Or.inl hm)
    · intro _; exact hu
    · intro hk; simp at hk
  | mainJoinT hm hw =>
    have hu := hs.unf_done (Or.inl hm)
    refine ⟨?_, ?_, ?_, ?_, ?_, ?_, ?_, ?_, ?_, ?_⟩ <;> dsimp only
    · exact hs.cap_eq
    · exact hs.wlen
    · exact hs.sem_eq
    · exact hs.unf_eq
    · exact hs.puts_eq
    · intro hk; simp at hk
    · intro k hk; simp at hk
    · intro _; exact hs.sent_done (Or.inr (Or.inl hm))
    · intro _; exact hu
    · intro _ w hwmem
      rcases hw w hwmem with hdead | hcrash
      · exact hdead
      · exfalso
        have hzero : countCrashed s.workers = 0 := by
          have := hs.unf_eq
          simp only [countBusy, countCrashed] at this ⊢
          omega
        have hposc : 0 < countCrashed s.workers :=
          List.countP_pos_iff.mpr ⟨w, hwmem, by rw [hcrash]; rfl⟩
        omega

/-- Every state reachable from a freshly started pool satisfies the
invariant. -/
lemma inv_reach {n : Nat} (hn : 0 < n) {s : PoolState}
    (h : Reach (poolInit n) s) : Inv n s := by
  induction h with
  | refl => exact inv_init n
  | tail _ hstep ih => exact inv_step hn ih hstep

/-! ## Claims about the classification, aggregation, window and worker body -/

/-- Claim C1 (confirmed; classification modelled from the spec, since
`event_s3_operation` / `check_s3bench_log` live in
`libs/ha/ha_common_libs_k8s.py`, outside the given sources): whenever the
harness's assertion passes, every completed `OperationResult` whose
`[start, end]` interval does not intersect the window's
`[opened_at, closed_at]` interval has outcome success — the assertions admit
failures only for operations overlapping (or touching) the window, never for
operations entirely outside it. -/
theorem no_phantom_failures_outside_window :
    ∀ (results : List OperationResult) (w : WindowSpan) (r : OperationResult),
      harness_assert results w = true → r ∈ results →
      overlapsWindow r w = false → r.success = true := by
  intro results w r hassert hmem hov
  by_contra hne
  have hfalse : r.success = false := by
    revert hne; cases r.success <;> simp
  have hrmem : r ∈ unexpected_failures results w :=
    List.mem_filter.mpr ⟨hmem, by simp [hfalse, hov]⟩
  unfold harness_assert at hassert
  rw [List.isEmpty_iff] at hassert
  rw [hassert] at hrmem
  cases hrmem

/-- A successful operation entirely before the window. -/
def resOutside : OperationResult := { opStart := 0, opEnd := 5, success := true }

/-- A failed operation overlapping the window. -/
def resInside : OperationResult := { opStart := 10, opEnd := 12, success := false }

/-- A concrete fault window. -/
def winC1 : WindowSpan := { opened_at := 9, closed_at := 13 }

/-- Witness: on a run with one failure inside the window and one success
outside it the assertion passes, and the theorem yields the success of the
outside operation. -/
theorem no_phantom_failures_outside_window_witness :
    harness_assert [resOutside, resInside] winC1 = true ∧
    resOutside.success = true :=
  ⟨by decide,
   no_phantom_failures_outside_window [resOutside, resInside] winC1 resOutside
     (by decide) (by decide) (by decide)⟩

/-- Claim C7 (counterexample): the polling loop does not wait for an
expected NUMBER of aggregate messages — it waits for one message of the
expected SHAPE (`len(...) == 2`).  With expected count 2: a single arriving
message of length 2 makes it return immediately (only one message consumed),
while two arriving messages of other lengths leave it to time out and abort
(`queue.Empty`), even though two messages arrived. -/
theorem await_report_counts_shape_not_messages :
    await_report 2 [[10, 20]] = Except.ok [10, 20] ∧
    await_consumed 2 [[10, 20]] = 1 ∧
    await_report 2 [[1], [2]] = Except.error () := by
  refine ⟨rfl, rfl, rfl⟩

/-- Claim C7 (corrected): the loop blocks until a message of the expected
shape (length) arrives, discarding non-matching messages; when the arrival
stream is exhausted the pending `get` times out and the resulting
`queue.Empty` aborts the scenario (`Except.error`), so no partial or
non-matching state is ever returned: an `ok` result has exactly the expected
length and is one of the arrived messages, and the error outcome happens
precisely when no arriving message has the expected length. -/
theorem await_report_shape_or_abort :
    ∀ (α : Type) (n : Nat) (ms : List (List α)),
      (∀ m, await_report n ms = Except.ok m → m.length = n ∧ m ∈ ms) ∧
      (await_report n ms = Except.error () ↔ ∀ m ∈ ms, m.length ≠ n) := by
  intro α n ms
  induction ms with
  | nil =>
    constructor
    · intro m h; simp [await_report] at h
    · simp [await_report]
  | cons m rest ih =>
    by_cases hm : m.length = n
    · constructor
      · intro m2 h
        simp only [await_report, if_pos hm, Except.ok.injEq] at h
        subst h
        exact ⟨hm, List.mem_cons_self m rest⟩
      · rw [await_report, if_pos hm]
        constructor
        · intro h; cases h
        · intro h
          exact absurd hm (h m (List.mem_cons_self m rest))
    · constructor
      · intro m2 h
        rw [await_report, if_neg hm] at h
        obtain ⟨h1, h2⟩ := ih.1 m2 h
        exact ⟨h1, List.mem_cons_of_mem m h2⟩
      · rw [await_report, if_neg hm, ih.2]
        constructor
        · intro h m2 hm2
          rcases List.mem_cons.mp hm2 with hh | hh
          · rw [hh]; exact hm
          · exact h m2 hh
        · intro h m2 hm2
          exact h m2 (List.mem_cons_of_mem m hm2)

/-- Witness: with expected shape 2 and arrivals `[[5], [1, 2]]` the loop
returns `[1, 2]`, whose length is 2 and which is among the arrivals. -/
theorem await_report_shape_or_abort_witness :
    ([1, 2] : List Nat).length = 2 ∧ ([1, 2] : List Nat) ∈ [[5], [1, 2]] :=
  (await_report_shape_or_abort Nat 2 [[5], [1, 2]]).1 [1, 2] rfl

/-- Claim C8 (counterexample): a second `signalOpen()` without an
intervening `signalClose()` is NOT reported fatally: `Event.set` on an
already-open window returns normally and leaves the state unchanged (a
silent idempotent no-op), whereas the spec-modelled detecting variant
(`signalOpen_spec`) would have failed at exactly this input. -/
theorem double_signalOpen_silently_ignored :
    signalOpen (Event.set mkEvent) = Except.ok (Event.set mkEvent) ∧
    Event.set (Event.set mkEvent) = Event.set mkEvent ∧
    signalOpen_spec (Event.set mkEvent) =
      Except.error "usage error: double open" :=
  ⟨rfl, rfl, rfl⟩

/-- Claim C8 (corrected): the fault window does follow
CLOSED → OPEN → CLOSED (`set` opens, `clear` closes, and no other transition
exists on a `threading.Event`), but a second `signalOpen()` without an
intervening `signalClose()` is silently ignored — `set` is an idempotent
no-op that never raises — rather than detected and reported fatally. -/
theorem fault_window_state_machine :
    mkEvent.is_set = false ∧
    (∀ e : Event, (Event.set e).is_set = true) ∧
    (∀ e : Event, Event.clear (Event.set e) = mkEvent) ∧
    (∀ e : Event, Event.set (Event.set e) = Event.set e) ∧
    (∀ e : Event, signalOpen e = Except.ok (Event.set e)) :=
  ⟨rfl, fun _ => rfl, fun _ => rfl, fun _ => rfl, fun _ => rfl⟩

/-- Claim C2 (counterexample): a handler that raises terminates its worker.
The worker dequeues `badWQ`, invokes its handler on `7`, the exception
propagates (`exit = raised`, not any captured failed-result value — the
worker records nothing), no `task_done` is issued on either queue, and the
next task (`goodWQ`, element `8`) is never executed by this worker. -/
theorem handler_exception_kills_worker :
    workerRun outerQ2 [some badWQ, some goodWQ] =
      RunLog.mk [7] 0 0 (ExitReason.raised ()) ∧
    (workerRun outerQ2 [some badWQ, some goodWQ]).calls ≠ [7, 8] :=
  ⟨rfl, by decide⟩

/-- Claim C2 (corrected): an exception raised by a task's handler is not
captured by the worker: it propagates out of the loop of `Workers.worker`,
terminating that worker with no acknowledgment on either queue and leaving
every subsequent queued task unexecuted by that worker; recording failures
is left entirely to the submitted handlers themselves. -/
theorem handler_exception_propagates :
    ∀ (φ τ ε : Type) (q : WorkQmeta φ) (wq : InnerWQ τ ε)
      (rest : List (Option (InnerWQ τ ε))) (wi : τ) (tl : List τ) (e : ε),
      wq.items = wi :: tl → wq.func wi = Except.error e →
      workerRun q (some wq :: rest) =
        RunLog.mk [wi] 0 0 (ExitReason.raised e) := by
  intro φ τ ε q wq rest wi tl e hitems hfunc
  simp only [workerRun, hitems, hfunc]

/-- Witness: the corrected claim applied to `badWQ` as the only queued
item. -/
theorem handler_exception_propagates_witness :
    badWQ.items = 7 :: [] ∧ badWQ.func 7 = Except.error () ∧
    workerRun outerQ2 [some badWQ] =
      RunLog.mk [7] 0 0 (ExitReason.raised ()) :=
  ⟨rfl, rfl,
   handler_exception_propagates _ _ _ outerQ2 badWQ [] 7 [] () rfl rfl⟩

/-- A second outer queue with a handler of a completely different type,
to exhibit that the worker's behaviour does not depend on it. -/
def outerQalt : WorkQmeta Nat := mkWorkQ 5 2

/-- Claim C9 (confirmed): the handler passed to `start_workers` is stored
on the pool's queue (`start_workers_q` keeps it in `func`) but the worker
never invokes it: `workerRun` is the same for any two outer queues, and for
each dequeued item — necessarily itself a `WorkQ` — the worker dequeues
exactly one element of that inner `WorkQ`, applies the inner queue's own
`func` to it and, when it returns, acknowledges the inner queue and the
outer queue once each. -/
theorem outer_handler_unused_inner_applied :
    ∀ (φ φ2 τ ε : Type) (q : WorkQmeta φ) (q2 : WorkQmeta φ2)
      (items : List (Option (InnerWQ τ ε))),
      workerRun q items = workerRun q2 items ∧
      (∀ (f : φ) (nw : Nat), (start_workers_q nw f).func = f) ∧
      (∀ (wq : InnerWQ τ ε) (rest : List (Option (InnerWQ τ ε)))
         (wi : τ) (tl : List τ),
         wq.items = wi :: tl → wq.func wi = Except.ok () →
         workerRun q (some wq :: rest) =
           RunLog.mk (wi :: (workerRun q rest).calls)
             ((workerRun q rest).innerAcks + 1)
             ((workerRun q rest).outerAcks + 1)
             (workerRun q rest).exit) := by
  intro φ φ2 τ ε q q2 items
  refine ⟨?_, fun _ _ => rfl, ?_⟩
  · induction items with
    | nil => rfl
    | cons hd tlist ih =>
      cases hd with
      | none => rfl
      | some wq =>
        cases hwq : wq.items with
        | nil => simp only [workerRun, hwq]
        | cons wi _ =>
          cases hf : wq.func wi with
          | error e => simp only [workerRun, hwq, hf]
          | ok u => simp only [workerRun, hwq, hf, ih]
  · intro wq rest wi tl hitems hfunc
    simp only [workerRun, hitems, hfunc]

/-- Witness: outer queues with handlers of different types produce the same
run, and on `goodWQ` the worker applies the inner handler to `8` and
acknowledges both queues once. -/
theorem outer_handler_unused_inner_applied_witness :
    workerRun outerQ2 [some goodWQ] = workerRun outerQalt [some goodWQ] ∧
    workerRun outerQ2 [some goodWQ] =
      RunLog.mk [8] 1 1 ExitReason.waiting :=
  ⟨(outer_handler_unused_inner_applied _ _ _ _ outerQ2 outerQalt
      [some goodWQ]).1,
   (outer_handler_unused_inner_applied _ _ _ _ outerQ2 outerQalt
      [some goodWQ]).2.2 goodWQ [] 8 [] rfl rfl⟩

/-- Claim C10 (confirmed): a dequeued `None` is the shutdown sentinel: the
worker that receives it acknowledges the outer queue exactly once for it,
invokes no handler, and permanently exits its loop — whatever remains queued
is left for other workers, so user-submitted tasks must never be `None`.
(That exactly one worker receives each queued `None` is the `workerGet`
transition, which removes the item from the shared queue as
`queue.Queue.get` does.) -/
theorem none_is_shutdown_sentinel :
    ∀ (φ τ ε : Type) (q : WorkQmeta φ) (rest : List (Option (InnerWQ τ ε))),
      workerRun q (none :: rest) = RunLog.mk [] 0 1 ExitReason.sentinel :=
  fun _ _ _ _ _ => rfl

/-! ## Claims about the pool transition system -/

/-- Claim C4 (confirmed): in every reachable state of a pool started with
`worker_count = n`, at most `n` tasks execute concurrently, and the bound
flows through the admission semaphore, which `start_workers` sizes to
exactly `n`: executing tasks are part of the outstanding work, outstanding
work plus available permits is constantly `n`, and the pool starts with all
`n` permits available. -/
theorem concurrency_bounded_by_nworkers :
    ∀ (n : Nat) (s : PoolState), 0 < n → Reach (poolInit n) s →
      countExec s.workers ≤ n ∧
      countExec s.workers ≤ s.unfinished ∧
      s.sem + s.unfinished = n ∧
      (poolInit n).sem = n := by
  intro n s hn hr
  have hinv := inv_reach hn hr
  have hmono : countExec s.workers ≤ countBusy s.workers := by
    refine List.countP_mono_left ?_
    intro w _ hw
    cases w with
    | busy item => rfl
    | idle => exact absurd hw (by simp [isExec])
    | dead => exact absurd hw (by simp [isExec])
    | crashed => exact absurd hw (by simp [isExec])
  have hunf := hinv.unf_eq
  have hsem := hinv.sem_eq
  simp only [countBusy, countCrashed, countExec] at hmono hunf ⊢
  refine ⟨by omega, by omega, hsem, rfl⟩

/-- Witness for the concurrency bound at a concrete pool of size 2. -/
theorem concurrency_bounded_by_nworkers_witness :
    countExec (poolInit 2).workers ≤ 2 ∧
    countExec (poolInit 2).workers ≤ (poolInit 2).unfinished ∧
    (poolInit 2).sem + (poolInit 2).unfinished = 2 ∧
    (poolInit 2).sem = 2 :=
  concurrency_bounded_by_nworkers 2 (poolInit 2) (by decide) Reach.refl

/-- Claim C5 (counterexample): the buffering bound is NOT a knob
independent of `worker_count`.  `start_workers` builds
`WorkQ(func, nworkers)`, so the queue/semaphore capacity is always exactly
the worker count: no two pools with equal worker counts can differ in
capacity, whatever handlers they are given. -/
theorem buffer_capacity_not_independent :
    (start_workers_q 3 (fun _ : Nat => (Except.ok () : Except Unit Unit))).maxsize = 3 ∧
    ¬ ∃ (n m : Nat) (f g : Nat → Except Unit Unit), n = m ∧
        (start_workers_q n f).maxsize ≠ (start_workers_q m g).maxsize := by
  constructor
  · rfl
  · rintro ⟨n, m, f, g, rfl, hne⟩
    exact hne rfl

/-- Claim C5 (corrected): `submit` acquires the admission semaphore before
enqueueing (guard of the `submit`/`mainPut` transitions) and the permit is
released only by `task_done` after a completed item is acknowledged, so the
outstanding work (queued plus executing) never exceeds the configured
capacity — but that capacity is always exactly `worker_count`, because
`start_workers` passes `nworkers` as the `WorkQ` maxsize; buffering is not
configurable separately from parallelism through the pool interface. -/
theorem outstanding_work_bounded_by_capacity :
    ∀ (n : Nat) (s : PoolState), 0 < n → Reach (poolInit n) s →
      s.unfinished ≤ s.cap ∧ s.cap = n := by
  intro n s hn hr
  have hinv := inv_reach hn hr
  have h1 := hinv.sem_eq
  have h2 := hinv.cap_eq
  exact ⟨by omega, h2⟩

/-- Witness for the outstanding-work bound at a concrete pool of size 1. -/
theorem outstanding_work_bounded_by_capacity_witness :
    (poolInit 1).unfinished ≤ (poolInit 1).cap ∧ (poolInit 1).cap = 1 :=
  outstanding_work_bounded_by_capacity 1 (poolInit 1) (by decide) Reach.refl

/-- Claim C3 (confirmed): whenever a single `end_workers()` call has
returned (`main = finished`, `endCalls = 1`), it enqueued exactly one
sentinel per worker, every `put` item — queued task or sentinel — has been
matched by a `task_done` acknowledgment (nothing dropped, every submitted
task completed before the return), the queue shows no unfinished work, and
every worker thread has exited and been joined. -/
theorem end_workers_drains_acks_and_joins :
    ∀ (n : Nat) (s : PoolState), 0 < n → Reach (poolInit n) s →
      s.main = MStatus.finished → s.endCalls = 1 →
      s.sentinelsPut = n ∧ s.acksCount = s.putsCount ∧ s.unfinished = 0 ∧
      ∀ w ∈ s.workers, w = WStatus.dead := by
  intro n s hn hr hfin hone
  have hinv := inv_reach hn hr
  have hu := hinv.unf_done (Or.inr hfin)
  have hsent := hinv.sent_done (Or.inr (Or.inr hfin))
  rw [hone, Nat.one_mul] at hsent
  have hputs := hinv.puts_eq
  exact ⟨hsent, by omega, hu, hinv.dead_fin hfin⟩

/-- The final state of one complete run of a pool of size 1: start, one
`end_workers()` call, sentinel consumed, all joined. -/
def runFin1 : PoolState :=
  { cap := 1, sem := 1, buf := [], unfinished := 0,
    workers := [WStatus.dead], main := .finished,
    putsCount := 1, acksCount := 1, sentinelsPut := 1, endCalls := 1 }

lemma reach_runFin1 : Reach (poolInit 1) runFin1 :=
  Reach.tail
    (Reach.tail
      (Reach.tail
        (Reach.tail
          (Reach.tail
            (Reach.tail
              (Reach.tail Reach.refl
                (Step.mainEnd (poolInit 1) (Or.inl rfl)))
              (Step.mainPut _ 0 rfl ⟨fun _ => by decide, fun _ => by decide⟩))
            (Step.workerGet _ 0 none [] rfl rfl))
          (Step.workerFinishSentinel _ 0 rfl))
        (Step.mainPutDone _ rfl))
      (Step.mainJoinQ _ rfl rfl))
    (Step.mainJoinT _ rfl (by decide))

/-- Witness: the complete size-1 run satisfies everything the shutdown
theorem promises. -/
theorem end_workers_drains_acks_and_joins_witness :
    runFin1.sentinelsPut = 1 ∧ runFin1.acksCount = runFin1.putsCount ∧
    runFin1.unfinished = 0 ∧ ∀ w ∈ runFin1.workers, w = WStatus.dead :=
  end_workers_drains_acks_and_joins 1 runFin1 (by decide) reach_runFin1
    rfl rfl

/-- The state reached by calling `end_workers()` a second time on the
completed pool `runFin1`: the extra sentinel was enqueued (the semaphore and
the queue happily admit it) and the call is at `w_workq.join()`. -/
def stuck1 : PoolState :=
  { cap := 1, sem := 0, buf := [none], unfinished := 1,
    workers := [WStatus.dead], main := .joinQ,
    putsCount := 2, acksCount := 1, sentinelsPut := 2, endCalls := 2 }

lemma reach_stuck1 : Reach (poolInit 1) stuck1 :=
  Reach.tail
    (Reach.tail
      (Reach.tail reach_runFin1
        (Step.mainEnd runFin1 (Or.inr rfl)))
      (Step.mainPut _ 0 rfl ⟨fun _ => by decide, fun _ => by decide⟩))
    (Step.mainPutDone _ rfl)

/-- Claim C6 (counterexample): a second `end_workers()` without caller-side
bookkeeping is neither detected nor reported: the run above is reachable —
both sentinel `put`s succeed without any error path — and in the resulting
state NO transition is enabled at all: in particular `join()`'s wake-up
condition (`unfinished = 0`) is false and no worker remains to make it true.
The second call hangs silently forever instead of failing fast. -/
theorem double_end_workers_hangs :
    Reach (poolInit 1) stuck1 ∧ ∀ t, ¬ Step stuck1 t := by
  refine ⟨reach_stuck1, ?_⟩
  intro t h
  cases h with
  | submit item hm hcp => simp [stuck1] at hm
  | workerGet i item rest hw hbuf =>
    rcases i with _ | i <;> simp [stuck1] at hw
  | workerFinishTask i hw =>
    rcases i with _ | i <;> simp [stuck1] at hw
  | workerFinishSentinel i hw =>
    rcases i with _ | i <;> simp [stuck1] at hw
  | workerCrash i hw =>
    rcases i with _ | i <;> simp [stuck1] at hw
  | mainEnd hm => rcases hm with h2 | h2 <;> simp [stuck1] at h2
  | mainPut k hm hcp => simp [stuck1] at hm
  | mainPutDone hm => simp [stuck1] at hm
  | mainJoinQ hm hu => simp [stuck1] at hu
  | mainJoinT hm hw => simp [stuck1] at hm

/-- Claim C6 (corrected): calling `end_workers()` on an already-shut-down
pool is silently tolerated up to `w_workq.join()` and then hangs forever: it
double-enqueues sentinels no worker will consume, and from any state where
the orchestrator sits in `join()` with unfinished work while every worker
has exited, every reachable state still sits in `join()` with unfinished
work — no error is raised and the call never returns.  Callers must track
whether shutdown already ran. -/
theorem second_end_workers_never_returns :
    ∀ (s t : PoolState), s.main = MStatus.joinQ → 0 < s.unfinished →
      (∀ w ∈ s.workers, w = WStatus.dead) → Reach s t →
      t.main = MStatus.joinQ ∧ 0 < t.unfinished := by
  intro s t hm hu hw hr
  have key : t.main = MStatus.joinQ ∧ 0 < t.unfinished ∧
      ∀ w ∈ t.workers, w = WStatus.dead := by
    induction hr with
    | refl => exact ⟨hm, hu, hw⟩
    | tail hprev hstep ih =>
      obtain ⟨ihm, ihu, ihw⟩ := ih
      cases hstep with
      | submit item hm2 hcp => rw [ihm] at hm2; simp at hm2
      | workerGet i item rest hw2 hbuf =>
        have := ihw _ (List.getElem?_mem hw2)
        simp at this
      | workerFinishTask i hw2 =>
        have := ihw _ (List.getElem?_mem hw2)
        simp at this
      | workerFinishSentinel i hw2 =>
        have := ihw _ (List.getElem?_mem hw2)
        simp at this
      | workerCrash i hw2 =>
        have := ihw _ (List.getElem?_mem hw2)
        simp at this
      | mainEnd hm2 =>
        rcases hm2 with h2 | h2 <;> rw [ihm] at h2 <;> simp at h2
      | mainPut k hm2 hcp => rw [ihm] at hm2; simp at hm2
      | mainPutDone hm2 => rw [ihm] at hm2; simp at hm2
      | mainJoinQ hm2 hu2 => omega
      | mainJoinT hm2 hw2 => rw [ihm] at hm2; simp at hm2
  exact ⟨key.1, key.2.1⟩

/-- Witness: the doubly-shut-down pool `stuck1` satisfies the hypotheses,
and indeed sits in `join()` with unfinished work. -/
theorem second_end_workers_never_returns_witness :
    stuck1.main = MStatus.joinQ ∧ 0 < stuck1.unfinished :=
  second_end_workers_never_returns stuck1 stuck1 rfl (by decide) (by decide)
    Reach.refl

end CortxTest
